import Mathlib

/-!
# Umor_Pico: LED blink and LoRa bring-up firmware (`umor_pico.cpp`)

A shallow embedding of the single translation unit `umor_pico.cpp`.

* The GPIO bank is a map from pin number to a record of direction, output
  level and function select.  The four SDK primitives the firmware calls
  (`gpio_init`, `gpio_set_dir`, `gpio_put`, `gpio_set_function`) are embedded
  as functions on that map, following the Pico SDK (`hardware_gpio`).
* `pico_led_init`, `pico_set_led` and `initLoRaPins` are state-passing
  translations of the functions of the same name.
* `main` never returns, so it is embedded as a step function on a machine
  whose program counter ranges over the source lines of `main` that hold a
  statement.  Each step executes one statement and reports the externally
  visible event (if any) the statement produces.
-/

namespace UmorPico

/-! ## Constants -/

/-- Success code of the Pico SDK (`PICO_OK`, `pico/error.h`). -/
def PICO_OK : Int := 0

/-- Success status of RadioLib (`RADIOLIB_ERR_NONE`). -/
def RADIOLIB_ERR_NONE : Int := 0

/-- Direction argument of `gpio_set_dir`: output. -/
def GPIO_OUT : Bool := true

/-- Direction argument of `gpio_set_dir`: input. -/
def GPIO_IN : Bool := false

/-- Function select value of software controlled IO (`GPIO_FUNC_SIO`). -/
def GPIO_FUNC_SIO : Nat := 5

/-- Line 56. -/
def SPI_MISO : Nat := 12

/-- Line 57. -/
def SPI_MOSI : Nat := 11

/-- Line 58. -/
def SPI_SCK : Nat := 10

/-- Line 61: chip select. -/
def CS_PIN : Nat := 3

/-- Line 62. -/
def DIO1_PIN : Nat := 20

/-- Line 63: reset. -/
def RST_PIN : Nat := 15

/-- Line 64. -/
def BUSY_PIN : Nat := 2

/-! ## GPIO model -/

/-- Software visible state of one GPIO pin. -/
structure Pin where
  /-- Direction: `true` is output (`GPIO_OUT`), `false` is input (`GPIO_IN`). -/
  out : Bool
  /-- Output level latched for the pin. -/
  level : Bool
  /-- Function select. -/
  func : Nat
  deriving DecidableEq, Repr

/-- The GPIO bank: pin number to pin state. -/
abbrev Gpio := Nat → Pin

/-- SDK `gpio_set_dir(gpio, out)`: sets the direction of one pin. -/
def gpio_set_dir (gpio : Nat) (out : Bool) (g : Gpio) : Gpio :=
  fun p => if p = gpio then { g p with out := out } else g p

/-- SDK `gpio_put(gpio, value)`: sets the output level of one pin. -/
def gpio_put (gpio : Nat) (value : Bool) (g : Gpio) : Gpio :=
  fun p => if p = gpio then { g p with level := value } else g p

/-- SDK `gpio_set_function(gpio, fn)`: selects the function of one pin. -/
def gpio_set_function (gpio : Nat) (fn : Nat) (g : Gpio) : Gpio :=
  fun p => if p = gpio then { g p with func := fn } else g p

/-- SDK `gpio_init(gpio)`: makes the pin an input, clears its output level and
selects the SIO function
(`gpio_set_dir(gpio, GPIO_IN); gpio_put(gpio, 0); gpio_set_function(gpio, GPIO_FUNC_SIO);`). -/
def gpio_init (gpio : Nat) (g : Gpio) : Gpio :=
  gpio_set_function gpio GPIO_FUNC_SIO (gpio_put gpio false (gpio_set_dir gpio GPIO_IN g))

/-- Hardware state the firmware writes: the GPIO bank of the microcontroller and
the output levels of the GPIOs of the wireless chip (Pico W). -/
structure Hw where
  gpio : Gpio
  wl : Nat → Bool

/-! ## Build configuration and external collaborators -/

/-- Which branch of the `#if defined(PICO_DEFAULT_LED_PIN) / #elif
defined(CYW43_WL_GPIO_LED_PIN)` chains (lines 27-36 and 41-47) is compiled,
with the pin number the board header defines. -/
inductive Board where
  | gpioLed (PICO_DEFAULT_LED_PIN : Nat)
  | cyw43Led (CYW43_WL_GPIO_LED_PIN : Nat)
  deriving DecidableEq, Repr

/-- Build configuration: the board, and the integer the build defines the macro
`LED_DELAY_MS` as (for instance with `-DLED_DELAY_MS=200`), if it defines it. -/
structure Cfg where
  board : Board
  LED_DELAY_MS_define : Option Int

/-- Lines 21-23: the macro `LED_DELAY_MS` is the value the build defines, and
1000 when the build does not define it. -/
def Cfg.LED_DELAY_MS (c : Cfg) : Int :=
  match c.LED_DELAY_MS_define with
  | some v => v
  | none => 1000

/-- Conversion of an integer argument to the parameter `uint32_t ms` of the SDK
function `sleep_ms`: the value modulo `2 ^ 32`. -/
def sleep_ms_arg (v : Int) : Nat :=
  (v % 4294967296).toNat

/-- Behaviour of the external collaborators in one execution: the codes they
return and what they do to the hardware state. -/
structure Env where
  /-- Return value of `cyw43_arch_init()`. -/
  cyw43_arch_init_rc : Int
  /-- Hardware effect of `cyw43_arch_init()`. -/
  cyw43_arch_init_hw : Hw → Hw
  /-- Hardware effect of `stdio_init_all()`. -/
  stdio_init_all_hw : Hw → Hw
  /-- Status code returned by `lora.begin(...)`. -/
  lora_begin_rc : Int
  /-- Hardware effect of `lora.begin(...)`. -/
  lora_begin_hw : Hw → Hw

/-! ## Functions of `umor_pico.cpp` -/

/-- Lines 26-37. -/
def pico_led_init (b : Board) (e : Env) (h : Hw) : Int × Hw :=
  match b with
  | .gpioLed pin =>
      (PICO_OK, { h with gpio := gpio_set_dir pin GPIO_OUT (gpio_init pin h.gpio) })
  | .cyw43Led _ => (e.cyw43_arch_init_rc, e.cyw43_arch_init_hw h)

/-- Lines 40-48. -/
def pico_set_led (b : Board) (led_on : Bool) (h : Hw) : Hw :=
  match b with
  | .gpioLed pin => { h with gpio := gpio_put pin led_on h.gpio }
  | .cyw43Led pin => { h with wl := fun p => if p = pin then led_on else h.wl p }

/-- Lines 68-71: the chip select block of `initLoRaPins`. -/
def initCS (g : Gpio) : Gpio :=
  gpio_put CS_PIN true (gpio_set_dir CS_PIN GPIO_OUT (gpio_init CS_PIN g))

/-- Lines 73-75: the DIO1 block of `initLoRaPins`. -/
def initDIO1 (g : Gpio) : Gpio :=
  gpio_set_dir DIO1_PIN GPIO_IN (gpio_init DIO1_PIN g)

/-- Lines 77-80: the reset block of `initLoRaPins`. -/
def initRST (g : Gpio) : Gpio :=
  gpio_put RST_PIN true (gpio_set_dir RST_PIN GPIO_OUT (gpio_init RST_PIN g))

/-- Lines 82-84: the busy block of `initLoRaPins`. -/
def initBUSY (g : Gpio) : Gpio :=
  gpio_set_dir BUSY_PIN GPIO_IN (gpio_init BUSY_PIN g)

/-- Lines 67-85. -/
def initLoRaPins (g : Gpio) : Gpio :=
  initBUSY (initRST (initDIO1 (initCS g)))

/-! ## `main` as a step machine -/

/-- Arguments of the call `lora.begin(freq, bw, sf, cr, syncWord, power)`. -/
structure BeginArgs where
  freq : ℚ
  bw : ℚ
  sf : Nat
  cr : Nat
  syncWord : Nat
  power : Int
  deriving DecidableEq

/-- Externally visible events of `main`. -/
inductive Event where
  /-- Call of `pico_led_init()`. -/
  | ledInit
  /-- The condition of `hard_assert` is false: the SDK panics and never returns. -/
  | assertFail
  /-- Call `pico_set_led(led_on)`. -/
  | led (led_on : Bool)
  /-- Call `sleep_ms(ms)`. -/
  | sleep (ms : Nat)
  /-- Call `stdio_init_all()`. -/
  | stdioInit
  /-- Call `printf(fmt, args...)`. -/
  | printf (fmt : String) (args : List Int)
  /-- Call `initLoRaPins()`. -/
  | loraPins
  /-- Call `lora.begin(...)`. -/
  | loraBegin (a : BeginArgs)
  deriving DecidableEq

/-- Program points of `main`: `lN` is the statement on source line `N`;
`stopped` is the state after a failed `hard_assert`. -/
inductive Pc where
  | l97 | l98
  | l101 | l102 | l103 | l104 | l105 | l106 | l107 | l108 | l109 | l110 | l111
  | l114
  | l116 | l117 | l118 | l119 | l120 | l121 | l122 | l123 | l124
  | l130 | l132 | l134 | l136 | l137 | l139 | l140
  | l144 | l145 | l146 | l147 | l148 | l149 | l150
  | stopped
  deriving DecidableEq, Repr

/-- State of `main`: program point, the locals `rc` and `state`, the hardware. -/
structure Machine where
  pc : Pc
  rc : Int
  state : Int
  hw : Hw

/-- One statement of `main` that only produces an event and falls through. -/
def emit (ev : Event) (next : Pc) (m : Machine) : Option Event × Machine :=
  (some ev, { m with pc := next })

/-- The statement `pico_set_led(led_on);` of `main`. -/
def setLed (c : Cfg) (led_on : Bool) (next : Pc) (m : Machine) : Option Event × Machine :=
  (some (.led led_on), { m with pc := next, hw := pico_set_led c.board led_on m.hw })

/-- Execute the statement at the current program point of `main` (lines 96-152).
A `sleep` event carries the value `sleep_ms` receives: the literal arguments
(200, 3000, 300, 500) fit `uint32_t` and are written as they stand, the macro
argument of lines 147 and 150 goes through `sleep_ms_arg`. -/
def step (c : Cfg) (e : Env) (m : Machine) : Option Event × Machine :=
  match m.pc with
  | .l97 =>
      let r := pico_led_init c.board e m.hw
      (some .ledInit, { m with pc := .l98, rc := r.1, hw := r.2 })
  | .l98 =>
      if m.rc = PICO_OK then (none, { m with pc := .l101 })
      else (some .assertFail, { m with pc := .stopped })
  | .l101 => setLed c true .l102 m
  | .l102 => emit (.sleep 200) .l103 m
  | .l103 => setLed c false .l104 m
  | .l104 => emit (.sleep 200) .l105 m
  | .l105 => setLed c true .l106 m
  | .l106 => emit (.sleep 200) .l107 m
  | .l107 => setLed c false .l108 m
  | .l108 => emit (.sleep 200) .l109 m
  | .l109 => setLed c true .l110 m
  | .l110 => emit (.sleep 200) .l111 m
  | .l111 => setLed c false .l114 m
  | .l114 => (some .stdioInit, { m with pc := .l116, hw := e.stdio_init_all_hw m.hw })
  | .l116 => emit (.sleep 3000) .l117 m
  | .l117 => emit (.printf "\nInitialising Pico " []) .l118 m
  | .l118 => emit (.sleep 300) .l119 m
  | .l119 => emit (.printf "." []) .l120 m
  | .l120 => emit (.sleep 300) .l121 m
  | .l121 => emit (.printf "." []) .l122 m
  | .l122 => emit (.sleep 300) .l123 m
  | .l123 => emit (.printf "." []) .l124 m
  | .l124 => emit (.sleep 500) .l130 m
  | .l130 =>
      (some .loraPins, { m with pc := .l132, hw := { m.hw with gpio := initLoRaPins m.hw.gpio } })
  | .l132 => emit (.printf "\nNow intialising LoRa Communication" []) .l134 m
  | .l134 =>
      (some (.loraBegin ⟨868.0, 125.0, 9, 7, 0x12, 17⟩),
        { m with pc := .l136, state := e.lora_begin_rc, hw := e.lora_begin_hw m.hw })
  | .l136 =>
      if m.state = RADIOLIB_ERR_NONE then (none, { m with pc := .l137 })
      else (none, { m with pc := .l139 })
  | .l137 => emit (.printf "\nLoRa initialized successfully!\n" []) .l144 m
  | .l139 => emit (.printf "\nFailed to initialize LoRa, code: %d\n" [m.state]) .l140 m
  | .l140 => (none, m)
  | .l144 => (none, { m with pc := .l145 })
  | .l145 => setLed c true .l146 m
  | .l146 => emit (.printf "\nLED On" []) .l147 m
  | .l147 => emit (.sleep (sleep_ms_arg c.LED_DELAY_MS)) .l148 m
  | .l148 => setLed c false .l149 m
  | .l149 => emit (.printf "\nLED Off" []) .l150 m
  | .l150 => emit (.sleep (sleep_ms_arg c.LED_DELAY_MS)) .l144 m
  | .stopped => (none, m)

/-- Execute `n` statements, collecting the events in order. -/
def run (c : Cfg) (e : Env) : Nat → Machine → List Event × Machine
  | 0, m => ([], m)
  | n + 1, m =>
      let r := step c e m
      let rest := run c e n r.2
      (r.1.toList ++ rest.1, rest.2)

/-- Entry of `main` on hardware state `h`.  The locals are assigned before they
are read, so their initial values are immaterial. -/
def boot (h : Hw) : Machine :=
  { pc := .l97, rc := 0, state := 0, hw := h }

/-- Events of the first `n` statements of `main`. -/
def trace (c : Cfg) (e : Env) (h : Hw) (n : Nat) : List Event :=
  (run c e n (boot h)).1

/-- Machine state of `main` after `n` statements. -/
def after (c : Cfg) (e : Env) (h : Hw) (n : Nat) : Machine :=
  (run c e n (boot h)).2

/-! ## Reference event sequences -/

/-- The six arguments written on line 134. -/
def beginArgs : BeginArgs := ⟨868.0, 125.0, 9, 7, 0x12, 17⟩

/-- Events of lines 101-111: the startup blink. -/
def startupBlink : List Event :=
  [.led true, .sleep 200, .led false, .sleep 200, .led true, .sleep 200,
   .led false, .sleep 200, .led true, .sleep 200, .led false]

/-- Events of lines 116-124: the banner and three dots. -/
def consoleBanner : List Event :=
  [.sleep 3000, .printf "\nInitialising Pico " [], .sleep 300, .printf "." [],
   .sleep 300, .printf "." [], .sleep 300, .printf "." [], .sleep 500]

/-- Events of lines 97-132: everything before the call of `lora.begin`. -/
def beforeBegin : List Event :=
  [.ledInit] ++ startupBlink ++ [.stdioInit] ++ consoleBanner ++
    [.loraPins, .printf "\nNow intialising LoRa Communication" []]

/-- Events of one iteration of the loop of lines 144-151. -/
def blinkBody (c : Cfg) : List Event :=
  [.led true, .printf "\nLED On" [], .sleep (sleep_ms_arg c.LED_DELAY_MS),
   .led false, .printf "\nLED Off" [], .sleep (sleep_ms_arg c.LED_DELAY_MS)]

/-- The event of line 137. -/
def successMsg : Event := .printf "\nLoRa initialized successfully!\n" []

/-- The event of line 139 for status `s`. -/
def failureMsg (s : Int) : Event := .printf "\nFailed to initialize LoRa, code: %d\n" [s]

/-- The message printed by the branch of lines 136-141 for status `s`. -/
def statusMsg (s : Int) : Event :=
  if s = RADIOLIB_ERR_NONE then successMsg else failureMsg s

/-- Concatenation of `n` copies of a list of events. -/
def repeatEvents (body : List Event) : Nat → List Event
  | 0 => []
  | n + 1 => body ++ repeatEvents body n

/-! ## Observations on traces and hardware -/

/-- Is the event a `pico_led_init` call. -/
def isLedInit : Event → Bool
  | .ledInit => true
  | _ => false

/-- Is the event an LED write (`pico_set_led`). -/
def isLed : Event → Bool
  | .led _ => true
  | _ => false

/-- Is the event a `sleep_ms` call. -/
def isSleep : Event → Bool
  | .sleep _ => true
  | _ => false

/-- Is the event a `stdio_init_all` call. -/
def isStdioInit : Event → Bool
  | .stdioInit => true
  | _ => false

/-- Is the event a `printf` call. -/
def isPrintf : Event → Bool
  | .printf _ _ => true
  | _ => false

/-- Is the event an `initLoRaPins` call. -/
def isLoraPins : Event → Bool
  | .loraPins => true
  | _ => false

/-- Is the event a `lora.begin` call. -/
def isBegin : Event → Bool
  | .loraBegin _ => true
  | _ => false

/-- Text produced by `printf` for a format and integer arguments; the only
conversion the firmware uses is `%d`. -/
def renderChars : List Char → List Int → List Char
  | '%' :: 'd' :: cs, a :: as => (toString a).toList ++ renderChars cs as
  | ch :: cs, as => ch :: renderChars cs as
  | [], _ => []

/-- Console text written by a sequence of events. -/
def printedText : List Event → String
  | [] => ""
  | .printf fmt args :: t => String.mk (renderChars fmt.toList args) ++ printedText t
  | _ :: t => printedText t

/-- Durations of the sleeps that lie between two consecutive LED writes of a
trace, in order.  The first argument holds the sleeps seen since the last LED
write, or `none` while no LED write has been seen. -/
def sleepsBetweenLedWrites : Option (List Nat) → List Event → List Nat
  | _, [] => []
  | none, .led _ :: t => sleepsBetweenLedWrites (some []) t
  | some p, .led _ :: t => p ++ sleepsBetweenLedWrites (some []) t
  | some p, .sleep ms :: t => sleepsBetweenLedWrites (some (p ++ [ms])) t
  | st, _ :: t => sleepsBetweenLedWrites st t

/-- Every event satisfying `q` has an event satisfying `p` somewhere before it. -/
def precededBy (p q : Event → Bool) : List Event → Bool
  | [] => true
  | ev :: t => if p ev then true else !q ev && precededBy p q t

/-- The LED state after a trace, starting from `st`: the value of the last
`pico_set_led` call, or `st` when there is none. -/
def ledStateFrom (st : Option Bool) : List Event → Option Bool
  | [] => st
  | .led b :: t => ledStateFrom (some b) t
  | _ :: t => ledStateFrom st t

/-- The LED state after a trace: the value of the last `pico_set_led` call. -/
def ledState (t : List Event) : Option Bool :=
  ledStateFrom none t

/-- Is the LED lit in hardware state `h`: on a board with a GPIO LED the LED pin
is an output driven high; on a Pico W the LED line of the wireless chip is high. -/
def ledOn (b : Board) (h : Hw) : Bool :=
  match b with
  | .gpioLed pin => (h.gpio pin).out && (h.gpio pin).level
  | .cyw43Led pin => h.wl pin

/-- The four radio control pins are configured: chip select and reset are
outputs driven high, DIO1 and BUSY are inputs. -/
def radioPinsConfigured (g : Gpio) : Bool :=
  (g CS_PIN).out && (g CS_PIN).level && (g RST_PIN).out && (g RST_PIN).level &&
    !(g DIO1_PIN).out && !(g BUSY_PIN).out

/-- The state in which `main` calls `lora.begin`, given the hardware `h` it
started from: `initLoRaPins` ran last. -/
def hwAtBegin (c : Cfg) (e : Env) (h : Hw) : Hw :=
  let h1 := (pico_led_init c.board e h).2
  let h2 := pico_set_led c.board false (pico_set_led c.board true h1)
  let h3 := pico_set_led c.board false (pico_set_led c.board true h2)
  let h4 := pico_set_led c.board false (pico_set_led c.board true h3)
  let h5 := e.stdio_init_all_hw h4
  { h5 with gpio := initLoRaPins h5.gpio }

/-- Program points of the loop of lines 144-151. -/
def inBlinkLoop : Pc → Bool
  | .l144 | .l145 | .l146 | .l147 | .l148 | .l149 | .l150 => true
  | _ => false

/-! ## Order of the configuration blocks of `initLoRaPins` -/

/-- The four configuration blocks of `initLoRaPins`, in source order
`cs`, `dio1`, `rst`, `busy`. -/
inductive PinBlock where
  | cs | dio1 | rst | busy
  deriving DecidableEq, Repr

/-- The effect of one configuration block. -/
def runBlock : PinBlock → Gpio → Gpio
  | .cs => initCS
  | .dio1 => initDIO1
  | .rst => initRST
  | .busy => initBUSY

/-- Execute configuration blocks in the order given. -/
def runBlocks (l : List PinBlock) (g : Gpio) : Gpio :=
  l.foldl (fun acc b => runBlock b acc) g

/-! ## Concrete configurations used to instantiate the theorems -/

/-- A Pico board: LED on GPIO 25, default delay. -/
def picoCfg : Cfg := ⟨.gpioLed 25, none⟩

/-- A Pico W board: LED on the wireless chip, default delay. -/
def picoWCfg : Cfg := ⟨.cyw43Led 0, none⟩

/-- A build that overrides the delay: `-DLED_DELAY_MS=200`. -/
def shortDelayCfg : Cfg := ⟨.gpioLed 25, some 200⟩

/-- Collaborators that return the given codes and leave the modelled hardware alone. -/
def envOf (cyw43rc status : Int) : Env := ⟨cyw43rc, id, id, status, id⟩

/-- All pins inputs, levels low, no function selected. -/
def hwReset : Hw := ⟨fun _ => ⟨false, false, 31⟩, fun _ => false⟩

/-- A hardware state in which every pin is an SIO input whose output level is
latched high. -/
def hwLevelHigh : Hw := ⟨fun _ => ⟨false, true, 5⟩, fun _ => false⟩

/-! ## Basic facts on `run` -/

theorem run_add (c : Cfg) (e : Env) (a b : Nat) (m : Machine) :
    run c e (a + b) m =
      ((run c e a m).1 ++ (run c e b (run c e a m).2).1, (run c e b (run c e a m).2).2) := by
  induction a generalizing m with
  | zero => simp [run]
  | succ a ih =>
      have h : a + 1 + b = (a + b) + 1 := by omega
      rw [h]
      simp [run, ih, List.append_assoc]

theorem trace_add (c : Cfg) (e : Env) (h : Hw) (a b : Nat) :
    trace c e h (a + b) = trace c e h a ++ (run c e b (after c e h a)).1 := by
  simp [trace, after, run_add]

theorem after_add (c : Cfg) (e : Env) (h : Hw) (a b : Nat) :
    after c e h (a + b) = (run c e b (after c e h a)).2 := by
  simp [trace, after, run_add]

/-- Every finite trace is an initial segment of every longer one. -/
theorem trace_mono (c : Cfg) (e : Env) (h : Hw) (n k : Nat) (hk : n ≤ k) :
    ∃ t, trace c e h k = trace c e h n ++ t := by
  obtain ⟨d, rfl⟩ := Nat.exists_eq_add_of_le hk
  exact ⟨_, trace_add c e h n d⟩

theorem run_to_begin (c : Cfg) (e : Env) (h : Hw)
    (hrc : (pico_led_init c.board e h).1 = PICO_OK) :
    run c e 25 (boot h) =
      (beforeBegin, { pc := .l134, rc := PICO_OK, state := 0, hw := hwAtBegin c e h }) := by
  simp [run, step, boot, hrc, emit, setLed, beforeBegin, startupBlink, consoleBanner, hwAtBegin]

theorem run_begin_success (c : Cfg) (e : Env) (m : Machine) (hpc : m.pc = .l134)
    (hs : e.lora_begin_rc = RADIOLIB_ERR_NONE) :
    run c e 3 m = ([.loraBegin beginArgs, successMsg],
      { m with pc := .l144, state := e.lora_begin_rc, hw := e.lora_begin_hw m.hw }) := by
  simp [run, step, hpc, hs, emit, beginArgs, successMsg]

theorem run_begin_failure (c : Cfg) (e : Env) (m : Machine) (hpc : m.pc = .l134)
    (hs : e.lora_begin_rc ≠ RADIOLIB_ERR_NONE) :
    run c e 3 m = ([.loraBegin beginArgs, failureMsg e.lora_begin_rc],
      { m with pc := .l140, state := e.lora_begin_rc, hw := e.lora_begin_hw m.hw }) := by
  simp [run, step, hpc, hs, emit, beginArgs, failureMsg]

theorem run_halted (c : Cfg) (e : Env) (n : Nat) (m : Machine) (hpc : m.pc = .l140) :
    run c e n m = ([], m) := by
  induction n with
  | zero => rfl
  | succ n ih => simp [run, step, hpc, ih]

theorem run_stopped (c : Cfg) (e : Env) (n : Nat) (m : Machine) (hpc : m.pc = .stopped) :
    run c e n m = ([], m) := by
  induction n with
  | zero => rfl
  | succ n ih => simp [run, step, hpc, ih]

theorem run_assert_fail (c : Cfg) (e : Env) (h : Hw)
    (hrc : (pico_led_init c.board e h).1 ≠ PICO_OK) :
    run c e 2 (boot h) = ([.ledInit, .assertFail],
      { pc := .stopped, rc := (pico_led_init c.board e h).1, state := 0,
        hw := (pico_led_init c.board e h).2 }) := by
  simp [run, step, boot, hrc]

theorem run_iteration (c : Cfg) (e : Env) (m : Machine) (hpc : m.pc = .l144) :
    run c e 7 m = (blinkBody c,
      { m with hw := pico_set_led c.board false (pico_set_led c.board true m.hw) }) := by
  cases m with
  | mk pc rc state hw =>
      simp only at hpc
      subst hpc
      simp [run, step, emit, setLed, blinkBody]

theorem run_loop (c : Cfg) (e : Env) (n : Nat) (m : Machine) (hpc : m.pc = .l144) :
    (run c e (7 * n) m).1 = repeatEvents (blinkBody c) n ∧ (run c e (7 * n) m).2.pc = .l144 := by
  induction n generalizing m with
  | zero => simp [run, repeatEvents, hpc]
  | succ n ih =>
      have h : 7 * (n + 1) = 7 + 7 * n := by omega
      rw [h, run_add, run_iteration c e m hpc]
      have := ih { m with hw := pico_set_led c.board false (pico_set_led c.board true m.hw) } hpc
      simp [repeatEvents, this]

/-! ## The three kinds of execution -/

theorem at_begin (c : Cfg) (e : Env) (h : Hw)
    (hrc : (pico_led_init c.board e h).1 = PICO_OK) :
    trace c e h 25 = beforeBegin ∧ (after c e h 25).pc = .l134 ∧
      (after c e h 25).hw = hwAtBegin c e h := by
  simp [trace, after, run_to_begin c e h hrc]

/-- The call of `lora.begin` is the 26th statement when LED initialisation succeeds. -/
theorem trace_begin (c : Cfg) (e : Env) (h : Hw)
    (hrc : (pico_led_init c.board e h).1 = PICO_OK) :
    trace c e h 26 = beforeBegin ++ [.loraBegin beginArgs] := by
  obtain ⟨h1, h2, -⟩ := at_begin c e h hrc
  have e26 : 26 = 25 + 1 := rfl
  rw [e26, trace_add, h1]
  simp [run, step, h2, beginArgs]

theorem exec_success (c : Cfg) (e : Env) (h : Hw)
    (hrc : (pico_led_init c.board e h).1 = PICO_OK)
    (hs : e.lora_begin_rc = RADIOLIB_ERR_NONE) (n : Nat) :
    trace c e h (28 + 7 * n) =
        beforeBegin ++ [.loraBegin beginArgs, successMsg] ++ repeatEvents (blinkBody c) n ∧
      (after c e h (28 + 7 * n)).pc = .l144 := by
  obtain ⟨h1, h2, -⟩ := at_begin c e h hrc
  have h28 : trace c e h 28 = beforeBegin ++ [.loraBegin beginArgs, successMsg] ∧
      (after c e h 28).pc = .l144 := by
    have e28 : 28 = 25 + 3 := rfl
    rw [e28, trace_add, after_add, run_begin_success c e _ h2 hs, h1]
    simp
  have hl := run_loop c e n (after c e h 28) h28.2
  rw [trace_add, after_add, h28.1, hl.1, hl.2]
  simp

theorem exec_failure (c : Cfg) (e : Env) (h : Hw)
    (hrc : (pico_led_init c.board e h).1 = PICO_OK)
    (hs : e.lora_begin_rc ≠ RADIOLIB_ERR_NONE) (n : Nat) :
    trace c e h (28 + n) =
        beforeBegin ++ [.loraBegin beginArgs, failureMsg e.lora_begin_rc] ∧
      (after c e h (28 + n)).pc = .l140 := by
  obtain ⟨h1, h2, -⟩ := at_begin c e h hrc
  have h28 : trace c e h 28 = beforeBegin ++ [.loraBegin beginArgs, failureMsg e.lora_begin_rc] ∧
      (after c e h 28).pc = .l140 := by
    have e28 : 28 = 25 + 3 := rfl
    rw [e28, trace_add, after_add, run_begin_failure c e _ h2 hs, h1]
    simp
  rw [trace_add, after_add, h28.1, run_halted c e n _ h28.2]
  simp [h28.2]

theorem exec_assert (c : Cfg) (e : Env) (h : Hw)
    (hrc : (pico_led_init c.board e h).1 ≠ PICO_OK) (n : Nat) :
    trace c e h (2 + n) = [.ledInit, .assertFail] ∧ (after c e h (2 + n)).pc = .stopped := by
  have h2 : trace c e h 2 = [.ledInit, .assertFail] ∧ (after c e h 2).pc = .stopped := by
    simp [trace, after, run_assert_fail c e h hrc]
  rw [trace_add, after_add, h2.1, run_stopped c e n _ h2.2]
  simp [h2.2]

/-! ## The steady-state loop is closed -/

theorem step_inBlinkLoop (c : Cfg) (e : Env) (m : Machine) (hm : inBlinkLoop m.pc = true) :
    inBlinkLoop (step c e m).2.pc = true := by
  cases m with
  | mk pc rc state hw =>
      cases pc <;> simp [inBlinkLoop] at hm <;> simp [step, emit, setLed, inBlinkLoop]

theorem run_inBlinkLoop (c : Cfg) (e : Env) (n : Nat) (m : Machine)
    (hm : inBlinkLoop m.pc = true) : inBlinkLoop (run c e n m).2.pc = true := by
  induction n generalizing m with
  | zero => simpa [run] using hm
  | succ n ih => simpa [run] using ih _ (step_inBlinkLoop c e m hm)

/-- Once inside the loop of lines 144-151, `main` is inside it at every later step. -/
theorem after_inBlinkLoop (c : Cfg) (e : Env) (h : Hw) (n k : Nat)
    (hn : inBlinkLoop (after c e h n).pc = true) :
    inBlinkLoop (after c e h (n + k)).pc = true := by
  rw [after_add]
  exact run_inBlinkLoop c e k _ hn

/-- No program point of the blink loop is reached when the assertion of line 98 fails. -/
theorem no_loop_of_assert (c : Cfg) (e : Env) (h : Hw)
    (hrc : (pico_led_init c.board e h).1 ≠ PICO_OK) (n : Nat) :
    inBlinkLoop (after c e h n).pc = false := by
  by_contra hn
  have hn1 : inBlinkLoop (after c e h n).pc = true := by simpa using hn
  have h3 := after_inBlinkLoop c e h n 2 hn1
  have e3 : n + 2 = 2 + n := by omega
  rw [e3, (exec_assert c e h hrc n).2] at h3
  simp [inBlinkLoop] at h3

/-- No program point of the blink loop is reached when `lora.begin` fails. -/
theorem no_loop_of_failure (c : Cfg) (e : Env) (h : Hw)
    (hrc : (pico_led_init c.board e h).1 = PICO_OK)
    (hs : e.lora_begin_rc ≠ RADIOLIB_ERR_NONE) (n : Nat) :
    inBlinkLoop (after c e h n).pc = false := by
  by_contra hn
  have hn1 : inBlinkLoop (after c e h n).pc = true := by simpa using hn
  have h3 := after_inBlinkLoop c e h n 28 hn1
  have e3 : n + 28 = 28 + n := by omega
  rw [e3, (exec_failure c e h hrc hs n).2] at h3
  simp [inBlinkLoop] at h3

/-! ## Repeated bodies and initial segments -/

theorem mem_repeatEvents (body : List Event) (n : Nat) (ev : Event)
    (hev : ev ∈ repeatEvents body n) : ev ∈ body := by
  induction n with
  | zero => simp [repeatEvents] at hev
  | succ n ih =>
      simp only [repeatEvents, List.mem_append] at hev
      rcases hev with hev | hev
      · exact hev
      · exact ih hev

theorem length_repeatEvents (body : List Event) (n : Nat) :
    (repeatEvents body n).length = body.length * n := by
  induction n with
  | zero => simp [repeatEvents]
  | succ n ih => simp [repeatEvents, ih, Nat.mul_succ, Nat.add_comm]

/-- In a successful execution every finite trace is an initial segment of the
startup events, the `lora.begin` call, the success message and blink iterations. -/
theorem trace_below_success (c : Cfg) (e : Env) (h : Hw)
    (hrc : (pico_led_init c.board e h).1 = PICO_OK)
    (hs : e.lora_begin_rc = RADIOLIB_ERR_NONE) (n : Nat) :
    ∃ t, beforeBegin ++ [.loraBegin beginArgs, successMsg] ++ repeatEvents (blinkBody c) n =
      trace c e h n ++ t := by
  rw [← (exec_success c e h hrc hs n).1]
  exact trace_mono c e h n (28 + 7 * n) (by omega)

/-- In a failing execution every finite trace is an initial segment of the
startup events, the `lora.begin` call and the failure message. -/
theorem trace_below_failure (c : Cfg) (e : Env) (h : Hw)
    (hrc : (pico_led_init c.board e h).1 = PICO_OK)
    (hs : e.lora_begin_rc ≠ RADIOLIB_ERR_NONE) (n : Nat) :
    ∃ t, beforeBegin ++ [.loraBegin beginArgs, failureMsg e.lora_begin_rc] =
      trace c e h n ++ t := by
  rw [← (exec_failure c e h hrc hs n).1]
  exact trace_mono c e h n (28 + n) (by omega)

/-- When the assertion of line 98 fails every finite trace is an initial
segment of the two events `ledInit`, `assertFail`. -/
theorem trace_below_assert (c : Cfg) (e : Env) (h : Hw)
    (hrc : (pico_led_init c.board e h).1 ≠ PICO_OK) (n : Nat) :
    ∃ t, [Event.ledInit, Event.assertFail] = trace c e h n ++ t := by
  rw [← (exec_assert c e h hrc n).1]
  exact trace_mono c e h n (2 + n) (by omega)

/-- After the `lora.begin` call the trace holds nothing, or the one status
message followed by events of blink iterations only. -/
theorem trace_after_begin (c : Cfg) (e : Env) (h : Hw)
    (hrc : (pico_led_init c.board e h).1 = PICO_OK) (n : Nat) :
    ∃ t, trace c e h (26 + n) = beforeBegin ++ [.loraBegin beginArgs] ++ t ∧
      (t = [] ∨ ∃ t2, t = statusMsg e.lora_begin_rc :: t2 ∧ ∀ ev ∈ t2, ev ∈ blinkBody c) := by
  obtain ⟨t, ht⟩ := trace_mono c e h 26 (26 + n) (by omega)
  rw [trace_begin c e h hrc] at ht
  refine ⟨t, ht, ?_⟩
  have key : ∀ rest : List Event, (∀ ev ∈ rest, ev ∈ blinkBody c) →
      (∃ u, beforeBegin ++ [.loraBegin beginArgs, statusMsg e.lora_begin_rc] ++ rest =
        trace c e h (26 + n) ++ u) →
      (t = [] ∨ ∃ t2, t = statusMsg e.lora_begin_rc :: t2 ∧ ∀ ev ∈ t2, ev ∈ blinkBody c) := by
    rintro rest hrest ⟨u, hu⟩
    rw [ht] at hu
    have hu2 : statusMsg e.lora_begin_rc :: rest = t ++ u := by
      have : (beforeBegin ++ [Event.loraBegin beginArgs]) ++
          (statusMsg e.lora_begin_rc :: rest) =
          (beforeBegin ++ [Event.loraBegin beginArgs]) ++ (t ++ u) := by
        simpa [List.append_assoc] using hu
      exact List.append_cancel_left this
    cases t with
    | nil => exact Or.inl rfl
    | cons x t2 =>
        right
        simp only [List.cons_append, List.cons.injEq] at hu2
        refine ⟨t2, by rw [hu2.1], ?_⟩
        intro ev hev
        apply hrest
        rw [hu2.2]
        exact List.mem_append_left _ hev
  by_cases hs : e.lora_begin_rc = RADIOLIB_ERR_NONE
  · apply key (repeatEvents (blinkBody c) (26 + n)) (fun ev hev => mem_repeatEvents _ _ _ hev)
    have : statusMsg e.lora_begin_rc = successMsg := by simp [statusMsg, hs]
    rw [this]
    exact trace_below_success c e h hrc hs (26 + n)
  · apply key [] (by simp)
    have : statusMsg e.lora_begin_rc = failureMsg e.lora_begin_rc := by simp [statusMsg, hs]
    rw [this, List.append_nil]
    exact trace_below_failure c e h hrc hs (26 + n)

/-- Before the `lora.begin` call every finite trace is an initial segment of
the startup events. -/
theorem trace_before_begin (c : Cfg) (e : Env) (h : Hw)
    (hrc : (pico_led_init c.board e h).1 = PICO_OK) (n : Nat) (hn : n ≤ 25) :
    ∃ t, beforeBegin = trace c e h n ++ t := by
  rw [← (at_begin c e h hrc).1]
  exact trace_mono c e h n 25 hn

/-! ## Ordering of events -/

theorem precededBy_left (p q : Event → Bool) (a b : List Event)
    (hab : precededBy p q (a ++ b) = true) : precededBy p q a = true := by
  induction a with
  | nil => rfl
  | cons x a ih =>
      simp only [List.cons_append, precededBy] at hab ⊢
      by_cases hx : p x = true
      · simp [hx]
      · simp only [hx, Bool.false_eq_true, if_false, Bool.and_eq_true] at hab ⊢
        exact ⟨hab.1, ih hab.2⟩

theorem precededBy_append (p q : Event → Bool) (a b : List Event)
    (ha : precededBy p q a = true) (hp : ∃ x ∈ a, p x = true) :
    precededBy p q (a ++ b) = true := by
  induction a with
  | nil => simp at hp
  | cons x a ih =>
      simp only [List.cons_append, precededBy] at ha ⊢
      by_cases hx : p x = true
      · simp [hx]
      · simp only [hx, Bool.false_eq_true, if_false, Bool.and_eq_true] at ha ⊢
        obtain ⟨y, hy, hpy⟩ := hp
        rcases List.mem_cons.1 hy with rfl | hy
        · exact absurd hpy hx
        · exact ⟨ha.1, ih ha.2 ⟨y, hy, hpy⟩⟩

/-- A property of the events before `lora.begin` that only asks for an earlier
event holds in every finite trace of an execution that passed line 98. -/
theorem precededBy_trace (p q : Event → Bool) (c : Cfg) (e : Env) (h : Hw)
    (hrc : (pico_led_init c.board e h).1 = PICO_OK)
    (hb : precededBy p q beforeBegin = true) (hp : ∃ x ∈ beforeBegin, p x = true) (n : Nat) :
    precededBy p q (trace c e h n) = true := by
  by_cases hs : e.lora_begin_rc = RADIOLIB_ERR_NONE
  · obtain ⟨t, ht⟩ := trace_below_success c e h hrc hs n
    apply precededBy_left p q _ t
    rw [← ht, List.append_assoc]
    exact precededBy_append p q _ _ hb hp
  · obtain ⟨t, ht⟩ := trace_below_failure c e h hrc hs n
    apply precededBy_left p q _ t
    rw [← ht]
    exact precededBy_append p q _ _ hb hp

/-! ## Radio pins -/

theorem initCS_pin (g : Gpio) (p : Nat) :
    initCS g p = if p = 3 then ⟨true, true, GPIO_FUNC_SIO⟩ else g p := by
  by_cases hp : p = 3 <;>
    simp [initCS, gpio_init, gpio_set_function, gpio_put, gpio_set_dir, CS_PIN, GPIO_OUT, hp]

theorem initDIO1_pin (g : Gpio) (p : Nat) :
    initDIO1 g p = if p = 20 then ⟨false, false, GPIO_FUNC_SIO⟩ else g p := by
  by_cases hp : p = 20 <;>
    simp [initDIO1, gpio_init, gpio_set_function, gpio_put, gpio_set_dir, DIO1_PIN, GPIO_IN, hp]

theorem initRST_pin (g : Gpio) (p : Nat) :
    initRST g p = if p = 15 then ⟨true, true, GPIO_FUNC_SIO⟩ else g p := by
  by_cases hp : p = 15 <;>
    simp [initRST, gpio_init, gpio_set_function, gpio_put, gpio_set_dir, RST_PIN, GPIO_OUT, hp]

theorem initBUSY_pin (g : Gpio) (p : Nat) :
    initBUSY g p = if p = 2 then ⟨false, false, GPIO_FUNC_SIO⟩ else g p := by
  by_cases hp : p = 2 <;>
    simp [initBUSY, gpio_init, gpio_set_function, gpio_put, gpio_set_dir, BUSY_PIN, GPIO_IN, hp]

theorem initLoRaPins_pin (g : Gpio) (p : Nat) :
    initLoRaPins g p =
      if p = 3 ∨ p = 15 then ⟨true, true, GPIO_FUNC_SIO⟩
      else if p = 20 ∨ p = 2 then ⟨false, false, GPIO_FUNC_SIO⟩
      else g p := by
  simp only [initLoRaPins, initBUSY_pin, initRST_pin, initDIO1_pin, initCS_pin]
  by_cases h2 : p = 2
  · simp [h2]
  by_cases h3 : p = 3
  · simp [h3]
  by_cases h15 : p = 15
  · simp [h15]
  by_cases h20 : p = 20
  · simp [h20]
  simp [h2, h3, h15, h20]

theorem initLoRaPins_configured (g : Gpio) : radioPinsConfigured (initLoRaPins g) = true := by
  simp [radioPinsConfigured, initLoRaPins, initBUSY, initRST, initDIO1, initCS, gpio_init,
    gpio_set_function, gpio_put, gpio_set_dir, CS_PIN, RST_PIN, DIO1_PIN, BUSY_PIN, GPIO_OUT,
    GPIO_IN]

theorem runBlock_comm (x y : PinBlock) (g : Gpio) :
    runBlock y (runBlock x g) = runBlock x (runBlock y g) := by
  funext p
  by_cases h2 : p = 2
  · cases x <;> cases y <;>
      simp [runBlock, initBUSY_pin, initRST_pin, initDIO1_pin, initCS_pin, h2]
  by_cases h3 : p = 3
  · cases x <;> cases y <;>
      simp [runBlock, initBUSY_pin, initRST_pin, initDIO1_pin, initCS_pin, h3]
  by_cases h15 : p = 15
  · cases x <;> cases y <;>
      simp [runBlock, initBUSY_pin, initRST_pin, initDIO1_pin, initCS_pin, h15]
  by_cases h20 : p = 20
  · cases x <;> cases y <;>
      simp [runBlock, initBUSY_pin, initRST_pin, initDIO1_pin, initCS_pin, h20]
  cases x <;> cases y <;>
    simp [runBlock, initBUSY_pin, initRST_pin, initDIO1_pin, initCS_pin, h2, h3, h15, h20]

/-- Between `initLoRaPins` (line 130) and `lora.begin` (line 134) the radio pins
stay configured. -/
theorem step_pins (c : Cfg) (e : Env) (m : Machine)
    (hm : m.pc = .l132 ∨ m.pc = .l134 → radioPinsConfigured m.hw.gpio = true) :
    (step c e m).2.pc = .l132 ∨ (step c e m).2.pc = .l134 →
      radioPinsConfigured (step c e m).2.hw.gpio = true := by
  cases m with
  | mk pc rc state hw =>
      cases pc <;> simp [step, emit, setLed] at hm ⊢
      · split <;> simp
      · exact initLoRaPins_configured _
      · exact hm
      · split <;> simp

theorem run_pins (c : Cfg) (e : Env) (n : Nat) (m : Machine)
    (hm : m.pc = .l132 ∨ m.pc = .l134 → radioPinsConfigured m.hw.gpio = true) :
    (run c e n m).2.pc = .l132 ∨ (run c e n m).2.pc = .l134 →
      radioPinsConfigured (run c e n m).2.hw.gpio = true := by
  induction n generalizing m with
  | zero => simpa [run] using hm
  | succ n ih => simpa [run] using ih _ (step_pins c e m hm)

/-! ## Sleeps and LED state -/

theorem sleepsBetween_left (st : Option (List Nat)) (a b : List Event) (d : Nat)
    (hd : d ∈ sleepsBetweenLedWrites st a) : d ∈ sleepsBetweenLedWrites st (a ++ b) := by
  induction a generalizing st with
  | nil => simp [sleepsBetweenLedWrites] at hd
  | cons ev a ih =>
      cases ev <;> cases st <;>
        simp only [List.cons_append, sleepsBetweenLedWrites, List.mem_append] at hd ⊢ <;>
        first
          | exact ih _ hd
          | (rcases hd with hd | hd
             · exact Or.inl hd
             · exact Or.inr (ih _ hd))

theorem sleepsBetween_loop (c : Cfg) (n : Nat) (st : Option (List Nat))
    (hst : ∀ p, st = some p → ∀ d ∈ p, d = sleep_ms_arg c.LED_DELAY_MS) :
    ∀ d ∈ sleepsBetweenLedWrites st (repeatEvents (blinkBody c) n),
      d = sleep_ms_arg c.LED_DELAY_MS := by
  induction n generalizing st with
  | zero => simp [repeatEvents, sleepsBetweenLedWrites]
  | succ n ih =>
      have hrec := ih (some [sleep_ms_arg c.LED_DELAY_MS]) (by simp)
      intro d hd
      cases st with
      | none =>
          simp only [repeatEvents, blinkBody, List.cons_append, List.nil_append,
            sleepsBetweenLedWrites, List.mem_append] at hd
          simp only [blinkBody] at hrec
          rcases List.mem_cons.1 hd with hd | hd
          · exact hd
          · exact hrec d hd
      | some p =>
          simp only [repeatEvents, blinkBody, List.cons_append, List.nil_append,
            sleepsBetweenLedWrites, List.mem_append] at hd
          simp only [blinkBody] at hrec
          rcases hd with hd | hd
          · exact hst p rfl d hd
          · rcases List.mem_cons.1 hd with hd | hd
            · exact hd
            · exact hrec d hd

theorem ledStateFrom_append (st : Option Bool) (a b : List Event) :
    ledStateFrom st (a ++ b) = ledStateFrom (ledStateFrom st a) b := by
  induction a generalizing st with
  | nil => rfl
  | cons ev a ih => cases ev <;> simp [ledStateFrom, ih]

theorem ledStateFrom_no_led (st : Option Bool) (t : List Event)
    (ht : ∀ ev ∈ t, isLed ev = false) : ledStateFrom st t = st := by
  induction t with
  | nil => rfl
  | cons ev t ih =>
      have hev := ht ev (List.mem_cons_self _ _)
      have ht2 : ∀ x ∈ t, isLed x = false := fun x hx => ht x (List.mem_cons_of_mem _ hx)
      cases ev <;> simp [ledStateFrom, isLed] at hev ⊢ <;> exact ih ht2

/-- The machine state in which `main` calls `lora.begin`. -/
theorem after_at_begin (c : Cfg) (e : Env) (h : Hw)
    (hrc : (pico_led_init c.board e h).1 = PICO_OK) :
    after c e h 25 = { pc := .l134, rc := PICO_OK, state := 0, hw := hwAtBegin c e h } := by
  simp [after, run_to_begin c e h hrc]

/-- When `lora.begin` fails the hardware state is never written again after the call. -/
theorem hw_after_failure (c : Cfg) (e : Env) (h : Hw)
    (hrc : (pico_led_init c.board e h).1 = PICO_OK)
    (hs : e.lora_begin_rc ≠ RADIOLIB_ERR_NONE) (k : Nat) :
    (after c e h (26 + k)).hw = e.lora_begin_hw (hwAtBegin c e h) := by
  have h25 := after_at_begin c e h hrc
  rcases k with _ | _ | k
  · have e1 : 26 + 0 = 25 + 1 := rfl
    rw [e1, after_add, h25]
    simp [run, step]
  · have e2 : 26 + (0 + 1) = 25 + 2 := rfl
    rw [e2, after_add, h25]
    simp [run, step, hs]
  · have e3 : 26 + (k + 1 + 1) = 25 + (3 + k) := by omega
    rw [e3, after_add, run_add, run_begin_failure c e _ (by rw [h25]) hs]
    simp only
    rw [run_halted c e k _ rfl, h25]

/-- The hardware LED during the startup blink: lit after each `pico_set_led(true)`,
dark after each `pico_set_led(false)`, unchanged by the sleeps. -/
theorem ledOn_startup (c : Cfg) (e : Env) (h : Hw)
    (hrc : (pico_led_init c.board e h).1 = PICO_OK) :
    (List.range 11).map (fun i => ledOn c.board (after c e h (3 + i)).hw) =
      [true, true, false, false, true, true, false, false, true, true, false] := by
  obtain ⟨board, d⟩ := c
  cases board with
  | gpioLed p =>
      simp [List.range, List.range.loop, after, run, step, boot, emit, setLed, ledOn,
        pico_led_init, pico_set_led, gpio_init, gpio_set_function, gpio_put, gpio_set_dir,
        GPIO_OUT, GPIO_IN, PICO_OK]
  | cyw43Led p =>
      simp only at hrc
      simp [List.range, List.range.loop, after, run, step, boot, emit, setLed, ledOn,
        pico_set_led, hrc]

/-- The hardware LED is dark when `main` calls `lora.begin`, unless the LED is
wired to a pin that `initLoRaPins` drives high or `stdio_init_all` lights it. -/
theorem ledOn_at_begin (c : Cfg) (e : Env) (h : Hw)
    (hcs : c.board ≠ .gpioLed CS_PIN) (hrst : c.board ≠ .gpioLed RST_PIN)
    (hstdio : ∀ x, ledOn c.board (e.stdio_init_all_hw x) = ledOn c.board x) :
    ledOn c.board (hwAtBegin c e h) = false := by
  obtain ⟨board, d⟩ := c
  cases board with
  | gpioLed p =>
      have h3 : p ≠ 3 := fun hp => hcs (by simp [hp, CS_PIN])
      have h15 : p ≠ 15 := fun hp => hrst (by simp [hp, RST_PIN])
      have hpre := hstdio
        (pico_set_led (.gpioLed p) false (pico_set_led (.gpioLed p) true
          (pico_set_led (.gpioLed p) false (pico_set_led (.gpioLed p) true
            (pico_set_led (.gpioLed p) false (pico_set_led (.gpioLed p) true
              (pico_led_init (.gpioLed p) e h).2))))))
      have hoff : ledOn (.gpioLed p) (pico_set_led (.gpioLed p) false
          (pico_set_led (.gpioLed p) true
          (pico_set_led (.gpioLed p) false (pico_set_led (.gpioLed p) true
            (pico_set_led (.gpioLed p) false (pico_set_led (.gpioLed p) true
              (pico_led_init (.gpioLed p) e h).2)))))) = false := by
        simp [ledOn, pico_set_led, gpio_put]
      rw [hoff] at hpre
      simp only [ledOn, hwAtBegin, initLoRaPins_pin] at hpre ⊢
      by_cases h20 : p = 20
      · simp [h20]
      by_cases h2 : p = 2
      · simp [h2]
      simpa [h3, h15, h20, h2] using hpre
  | cyw43Led p =>
      have hpre := hstdio
        (pico_set_led (.cyw43Led p) false (pico_set_led (.cyw43Led p) true
          (pico_set_led (.cyw43Led p) false (pico_set_led (.cyw43Led p) true
            (pico_set_led (.cyw43Led p) false (pico_set_led (.cyw43Led p) true
              (pico_led_init (.cyw43Led p) e h).2))))))
      have hoff : ledOn (.cyw43Led p) (pico_set_led (.cyw43Led p) false
          (pico_set_led (.cyw43Led p) true
          (pico_set_led (.cyw43Led p) false (pico_set_led (.cyw43Led p) true
            (pico_set_led (.cyw43Led p) false (pico_set_led (.cyw43Led p) true
              (pico_led_init (.cyw43Led p) e h).2)))))) = false := by
        simp [ledOn, pico_set_led]
      rw [hoff] at hpre
      simpa [ledOn, hwAtBegin] using hpre

/-! ## C1: the failure path -/

/-- C1: when LED initialisation succeeds and `lora.begin` returns a status `s`
other than `RADIOLIB_ERR_NONE`, the call is the 26th statement executed, the
trace after the call is empty for the branch step and from then on is exactly
the single event `printf("\nFailed to initialize LoRa, code: %d\n", s)` with
that same `s`; the trace never grows again (no LED write, print or sleep), the
program counter stays on the empty loop of line 140, and no program point of
the blink loop of lines 144-151 is ever reached. -/
theorem C1_failure_path (c : Cfg) (e : Env) (h : Hw)
    (hrc : (pico_led_init c.board e h).1 = PICO_OK)
    (hs : e.lora_begin_rc ≠ RADIOLIB_ERR_NONE) :
    trace c e h 26 = beforeBegin ++ [.loraBegin beginArgs] ∧
    (∀ n, trace c e h (26 + n) = trace c e h 26 ++
      if n < 2 then []
      else [.printf "\nFailed to initialize LoRa, code: %d\n" [e.lora_begin_rc]]) ∧
    (∀ n, (after c e h (28 + n)).pc = .l140) ∧
    (∀ n, inBlinkLoop (after c e h n).pc = false) := by
  obtain ⟨h1, h2, -⟩ := at_begin c e h hrc
  have h26 := trace_begin c e h hrc
  have h27 : trace c e h 27 = beforeBegin ++ [.loraBegin beginArgs] := by
    have e27 : 27 = 25 + 2 := rfl
    rw [e27, trace_add, h1]
    simp [run, step, h2, beginArgs, hs]
  refine ⟨h26, ?_, fun n => (exec_failure c e h hrc hs n).2, ?_⟩
  · intro n
    rcases n with _ | _ | n
    · simp
    · simp [h27, h26]
    · have e2 : 26 + (n + 1 + 1) = 28 + n := by omega
      have e3 : ¬ (n + 1 + 1 < 2) := by omega
      rw [e2, (exec_failure c e h hrc hs n).1, h26, if_neg e3]
      simp [failureMsg]
  · exact no_loop_of_failure c e h hrc hs

/-- Instance of C1: a Pico whose radio reports status -2. -/
theorem C1_failure_path_witness :
    (pico_led_init picoCfg.board (envOf 0 (-2)) hwReset).1 = PICO_OK ∧
    (envOf 0 (-2)).lora_begin_rc ≠ RADIOLIB_ERR_NONE ∧
    (∀ n, trace picoCfg (envOf 0 (-2)) hwReset (26 + n) =
      trace picoCfg (envOf 0 (-2)) hwReset 26 ++
      if n < 2 then []
      else [.printf "\nFailed to initialize LoRa, code: %d\n" [-2]]) :=
  ⟨rfl, by decide,
    (C1_failure_path picoCfg (envOf 0 (-2)) hwReset rfl (by decide)).2.1⟩

/-! ## C2: the success path -/

/-- C2: when LED initialisation succeeds and `lora.begin` returns
`RADIOLIB_ERR_NONE`, then for every `n` the trace after `28 + 7 * n` statements
is the startup events, the `lora.begin` call, the success message and exactly
`n` repetitions of LED on, print "\nLED On", `sleep_ms(LED_DELAY_MS)`, LED off,
print "\nLED Off", `sleep_ms(LED_DELAY_MS)` (that is `6 * n` events), where both
sleeps receive the same value, `LED_DELAY_MS` as a `uint32_t`, which is
`LED_DELAY_MS` itself when that lies in `0 .. 2 ^ 32 - 1`; the success
message occurs exactly once in every trace from statement 28 on and at most
once in any trace, the failure message never occurs for any code, and from
statement 28 on the program counter is always inside the loop of lines 144-151. -/
theorem C2_success_path (c : Cfg) (e : Env) (h : Hw)
    (hrc : (pico_led_init c.board e h).1 = PICO_OK)
    (hs : e.lora_begin_rc = RADIOLIB_ERR_NONE) :
    (∀ n, trace c e h (28 + 7 * n) =
      beforeBegin ++
        [.loraBegin beginArgs, .printf "\nLoRa initialized successfully!\n" []] ++
        repeatEvents
          [.led true, .printf "\nLED On" [], .sleep (sleep_ms_arg c.LED_DELAY_MS),
           .led false, .printf "\nLED Off" [], .sleep (sleep_ms_arg c.LED_DELAY_MS)] n) ∧
    (0 ≤ c.LED_DELAY_MS → c.LED_DELAY_MS < 4294967296 →
      (sleep_ms_arg c.LED_DELAY_MS : Int) = c.LED_DELAY_MS) ∧
    (∀ n, (repeatEvents (blinkBody c) n).length = 6 * n) ∧
    (∀ n, (trace c e h n).count successMsg ≤ 1) ∧
    (∀ n, (trace c e h (28 + n)).count successMsg = 1) ∧
    (∀ n s, failureMsg s ∉ trace c e h n) ∧
    (∀ n, inBlinkLoop (after c e h (28 + n)).pc = true) := by
  have hcount : ∀ n, (beforeBegin ++ [.loraBegin beginArgs, successMsg] ++
      repeatEvents (blinkBody c) n).count successMsg = 1 := by
    intro n
    have h0 : (repeatEvents (blinkBody c) n).count successMsg = 0 := by
      rw [List.count_eq_zero]
      intro hm
      have := mem_repeatEvents _ _ _ hm
      simp [blinkBody, successMsg] at this
    rw [List.count_append, h0]
    simp [beforeBegin, startupBlink, consoleBanner, successMsg, List.count_cons]
  have hle : ∀ n, (trace c e h n).count successMsg ≤ 1 := by
    intro n
    obtain ⟨t, ht⟩ := trace_below_success c e h hrc hs n
    have := hcount n
    rw [ht, List.count_append] at this
    omega
  refine ⟨fun n => (exec_success c e h hrc hs n).1, ?_, ?_, hle, ?_, ?_, ?_⟩
  · intro h0 h1
    unfold sleep_ms_arg
    rw [Int.emod_eq_of_lt h0 h1]
    exact Int.toNat_of_nonneg h0
  · intro n
    rw [length_repeatEvents]
    simp [blinkBody]
  · intro n
    have h28 := (exec_success c e h hrc hs 0).1
    simp only [Nat.mul_zero, Nat.add_zero, repeatEvents, List.append_nil] at h28
    obtain ⟨t, ht⟩ := trace_mono c e h 28 (28 + n) (by omega)
    have h1 : 1 ≤ (trace c e h (28 + n)).count successMsg := by
      rw [ht, List.count_append, h28]
      have := hcount 0
      simp only [repeatEvents, List.append_nil] at this
      omega
    have := hle (28 + n)
    omega
  · intro n s hm
    obtain ⟨t, ht⟩ := trace_below_success c e h hrc hs n
    have hm2 : failureMsg s ∈ beforeBegin ++ [.loraBegin beginArgs, successMsg] ++
        repeatEvents (blinkBody c) n := by
      rw [ht]
      exact List.mem_append_left _ hm
    simp only [List.mem_append] at hm2
    rcases hm2 with hm2 | hm2
    · simp [beforeBegin, startupBlink, consoleBanner, successMsg, failureMsg] at hm2
    · have := mem_repeatEvents _ _ _ hm2
      simp [blinkBody, failureMsg] at this
  · intro n
    have h28 : inBlinkLoop (after c e h 28).pc = true := by
      have := (exec_success c e h hrc hs 0).2
      simp only [Nat.mul_zero, Nat.add_zero] at this
      simp [this, inBlinkLoop]
    exact after_inBlinkLoop c e h 28 n h28

/-- Instance of C2: a Pico whose radio comes up, after two blink iterations. -/
theorem C2_success_path_witness :
    (pico_led_init picoCfg.board (envOf 0 0) hwReset).1 = PICO_OK ∧
    (envOf 0 0).lora_begin_rc = RADIOLIB_ERR_NONE ∧
    trace picoCfg (envOf 0 0) hwReset (28 + 7 * 2) =
      beforeBegin ++
        [.loraBegin beginArgs, .printf "\nLoRa initialized successfully!\n" []] ++
        repeatEvents
          [.led true, .printf "\nLED On" [], .sleep 1000,
           .led false, .printf "\nLED Off" [], .sleep 1000] 2 :=
  ⟨rfl, rfl, (C2_success_path picoCfg (envOf 0 0) hwReset rfl rfl).1 2⟩

/-! ## C3: which executions reach the blink loop -/

/-- C3 as stated fails: on a Pico W board whose `cyw43_arch_init` returns `-1`,
`lora.begin` would return the success status, yet `main` never reaches the
blink loop, because `hard_assert(rc == PICO_OK)` on line 98 stops it. -/
theorem C3_counterexample :
    ¬ ((∃ n, inBlinkLoop (after picoWCfg (envOf (-1) 0) hwReset n).pc = true) ↔
        (envOf (-1) 0).lora_begin_rc = RADIOLIB_ERR_NONE) := by
  intro hiff
  obtain ⟨n, hn⟩ := hiff.2 rfl
  have := no_loop_of_assert picoWCfg (envOf (-1) 0) hwReset (by decide) n
  rw [this] at hn
  exact Bool.false_ne_true hn

/-- C3 (amended): for every board, every return value of `pico_led_init` and
every radio status, `main` reaches the blink loop of lines 144-151 if and only
if `pico_led_init` returns `PICO_OK` and `lora.begin` returns
`RADIOLIB_ERR_NONE`; and `lora.begin` is called if and only if `pico_led_init`
returns `PICO_OK` (the result of LED initialisation is checked on line 98,
before the radio initialisation call). -/
theorem C3_two_failure_paths (c : Cfg) (e : Env) (h : Hw) :
    ((∃ n, inBlinkLoop (after c e h n).pc = true) ↔
      ((pico_led_init c.board e h).1 = PICO_OK ∧ e.lora_begin_rc = RADIOLIB_ERR_NONE)) ∧
    ((∃ n a, Event.loraBegin a ∈ trace c e h n) ↔ (pico_led_init c.board e h).1 = PICO_OK) := by
  constructor
  · constructor
    · rintro ⟨n, hn⟩
      by_cases hrc : (pico_led_init c.board e h).1 = PICO_OK
      · by_cases hs : e.lora_begin_rc = RADIOLIB_ERR_NONE
        · exact ⟨hrc, hs⟩
        · rw [no_loop_of_failure c e h hrc hs n] at hn
          exact absurd hn Bool.false_ne_true
      · rw [no_loop_of_assert c e h hrc n] at hn
        exact absurd hn Bool.false_ne_true
    · rintro ⟨hrc, hs⟩
      refine ⟨28, ?_⟩
      have := (exec_success c e h hrc hs 0).2
      simp only [Nat.mul_zero, Nat.add_zero] at this
      simp [this, inBlinkLoop]
  · constructor
    · rintro ⟨n, a, ha⟩
      by_contra hrc
      obtain ⟨t, ht⟩ := trace_below_assert c e h hrc n
      have : Event.loraBegin a ∈ [Event.ledInit, Event.assertFail] := by
        rw [ht]
        exact List.mem_append_left _ ha
      simp at this
    · intro hrc
      exact ⟨26, beginArgs, by simp [trace_begin c e h hrc]⟩

/-! ## C4: order of the startup events -/

/-- C4: when LED initialisation succeeds, the first 26 statements of `main`
produce, in this order, the `pico_led_init` call, the startup blink, the
`stdio_init_all` call, the banner, the `initLoRaPins` call, the radio
announcement and the `lora.begin` call.  In every finite trace each `printf`
comes after `stdio_init_all`, each LED write after `pico_led_init`, each
`lora.begin` call after `initLoRaPins`; and whenever `main` is about to execute
line 134 the chip select and reset pins are outputs driven high and the DIO1
and BUSY pins are inputs. -/
theorem C4_startup_order (c : Cfg) (e : Env) (h : Hw)
    (hrc : (pico_led_init c.board e h).1 = PICO_OK) :
    trace c e h 26 =
      [.ledInit] ++ startupBlink ++ [.stdioInit] ++ consoleBanner ++
        [.loraPins, .printf "\nNow intialising LoRa Communication" [],
         .loraBegin beginArgs] ∧
    (∀ n, precededBy isStdioInit isPrintf (trace c e h n) = true) ∧
    (∀ n, precededBy isLedInit isLed (trace c e h n) = true) ∧
    (∀ n, precededBy isLoraPins isBegin (trace c e h n) = true) ∧
    (∀ n, (after c e h n).pc = .l134 →
      radioPinsConfigured (after c e h n).hw.gpio = true) := by
  refine ⟨?_, ?_, ?_, ?_, ?_⟩
  · rw [trace_begin c e h hrc]
    simp [beforeBegin]
  · exact precededBy_trace _ _ c e h hrc (by decide) ⟨.stdioInit, by simp [beforeBegin], rfl⟩
  · exact precededBy_trace _ _ c e h hrc (by decide) ⟨.ledInit, by simp [beforeBegin], rfl⟩
  · exact precededBy_trace _ _ c e h hrc (by decide) ⟨.loraPins, by simp [beforeBegin], rfl⟩
  · intro n hn
    exact run_pins c e n (boot h) (by simp [boot]) (Or.inr hn)

/-- Instance of C4: a Pico started from the reset state. -/
theorem C4_startup_order_witness :
    (pico_led_init picoCfg.board (envOf 0 0) hwReset).1 = PICO_OK ∧
    trace picoCfg (envOf 0 0) hwReset 26 =
      [.ledInit] ++ startupBlink ++ [.stdioInit] ++ consoleBanner ++
        [.loraPins, .printf "\nNow intialising LoRa Communication" [],
         .loraBegin beginArgs] ∧
    radioPinsConfigured (after picoCfg (envOf 0 0) hwReset 25).hw.gpio = true :=
  ⟨rfl, (C4_startup_order picoCfg (envOf 0 0) hwReset rfl).1,
    (C4_startup_order picoCfg (envOf 0 0) hwReset rfl).2.2.2.2 25 rfl⟩

/-! ## C5: the `lora.begin` call -/

/-- C5: when LED initialisation succeeds, every finite trace of `main` from the
26th statement on contains exactly one `lora.begin` call, every finite trace
contains at most one, and every such call carries the arguments frequency 868,
bandwidth 125, spreading factor 9, coding rate 7, sync word 18 (0x12) and
power 17, whatever the board, the collaborators and the hardware state. -/
theorem C5_begin_once (c : Cfg) (e : Env) (h : Hw)
    (hrc : (pico_led_init c.board e h).1 = PICO_OK) :
    (∀ n, (trace c e h (26 + n)).filter isBegin =
      [.loraBegin { freq := 868, bw := 125, sf := 9, cr := 7, syncWord := 18, power := 17 }]) ∧
    (∀ n, ((trace c e h n).filter isBegin).length ≤ 1) ∧
    (∀ n a, Event.loraBegin a ∈ trace c e h n →
      a = { freq := 868, bw := 125, sf := 9, cr := 7, syncWord := 18, power := 17 }) := by
  have hargs : beginArgs =
      { freq := 868, bw := 125, sf := 9, cr := 7, syncWord := 18, power := 17 } := by
    simp only [beginArgs, BeginArgs.mk.injEq]
    norm_num
  have hone : ∀ n, (trace c e h (26 + n)).filter isBegin = [.loraBegin beginArgs] := by
    intro n
    obtain ⟨t, ht, hcase⟩ := trace_after_begin c e h hrc n
    have hb : beforeBegin.filter isBegin = [] := by decide
    have hst : isBegin (statusMsg e.lora_begin_rc) = false := by
      unfold statusMsg
      split <;> rfl
    have hbody : ∀ ev ∈ blinkBody c, isBegin ev = false := by
      intro ev hev
      simp only [blinkBody, List.mem_cons, List.mem_singleton, List.not_mem_nil, or_false] at hev
      rcases hev with rfl | rfl | rfl | rfl | rfl | rfl <;> rfl
    have htf : t.filter isBegin = [] := by
      rcases hcase with rfl | ⟨t2, rfl, h2⟩
      · rfl
      · rw [List.filter_cons, hst]
        simp only [Bool.false_eq_true, if_false, List.filter_eq_nil_iff]
        intro ev hev
        simp [hbody ev (h2 ev hev)]
    rw [ht, List.filter_append, List.filter_append, hb, htf]
    simp [isBegin]
  have hmost : ∀ n, ((trace c e h n).filter isBegin).length ≤ 1 := by
    intro n
    obtain ⟨t, ht⟩ := trace_mono c e h n (26 + n) (by omega)
    have := hone n
    rw [ht, List.filter_append] at this
    have hl := congrArg List.length this
    simp only [List.length_append, List.length_singleton] at hl
    omega
  refine ⟨fun n => by rw [hone n, hargs], hmost, ?_⟩
  intro n a ha
  obtain ⟨t, ht⟩ := trace_mono c e h n (26 + n) (by omega)
  have hmem : Event.loraBegin a ∈ (trace c e h (26 + n)).filter isBegin := by
    rw [List.mem_filter]
    refine ⟨?_, rfl⟩
    rw [ht]
    exact List.mem_append_left _ ha
  rw [hone n] at hmem
  simp only [List.mem_singleton, Event.loraBegin.injEq] at hmem
  rw [hmem, hargs]

/-- Instance of C5: a Pico W whose radio reports status -707, after 126 statements. -/
theorem C5_begin_once_witness :
    (pico_led_init picoWCfg.board (envOf 0 (-707)) hwReset).1 = PICO_OK ∧
    (trace picoWCfg (envOf 0 (-707)) hwReset (26 + 100)).filter isBegin =
      [.loraBegin { freq := 868, bw := 125, sf := 9, cr := 7, syncWord := 18, power := 17 }] :=
  ⟨rfl, (C5_begin_once picoWCfg (envOf 0 (-707)) hwReset rfl).1 100⟩

/-! ## C6: console output -/

/-- C6: when LED initialisation succeeds, the events before the `lora.begin`
call are the fixed list `beforeBegin`, whatever the status code; the `printf`
calls among them are the banner, three dots and the radio announcement, whose
printed text is "\nInitialising Pico ...\nNow intialising LoRa Communication";
the dots are separated by 300 ms sleeps.  After the call the `printf` calls of
every finite trace are: none yet, or the one status message (success for
status 0, failure with the code otherwise) followed only by "\nLED On" and
"\nLED Off" lines. -/
theorem C6_console_output (c : Cfg) (e : Env) (h : Hw)
    (hrc : (pico_led_init c.board e h).1 = PICO_OK) :
    trace c e h 25 = beforeBegin ∧
    (∀ n, n ≤ 25 → ∃ t, beforeBegin = trace c e h n ++ t) ∧
    beforeBegin.filter isPrintf =
      [.printf "\nInitialising Pico " [], .printf "." [], .printf "." [], .printf "." [],
       .printf "\nNow intialising LoRa Communication" []] ∧
    printedText beforeBegin = "\nInitialising Pico ...\nNow intialising LoRa Communication" ∧
    consoleBanner =
      [.sleep 3000, .printf "\nInitialising Pico " [], .sleep 300, .printf "." [],
       .sleep 300, .printf "." [], .sleep 300, .printf "." [], .sleep 500] ∧
    (∀ n, ∃ t, trace c e h (26 + n) = beforeBegin ++ [.loraBegin beginArgs] ++ t ∧
      (t.filter isPrintf = [] ∨
        ∃ t2, t.filter isPrintf = statusMsg e.lora_begin_rc :: t2 ∧
          ∀ ev ∈ t2, ev = .printf "\nLED On" [] ∨ ev = .printf "\nLED Off" [])) := by
  refine ⟨(at_begin c e h hrc).1, fun n hn => trace_before_begin c e h hrc n hn,
    by decide, by decide, rfl, ?_⟩
  intro n
  obtain ⟨t, ht, hcase⟩ := trace_after_begin c e h hrc n
  refine ⟨t, ht, ?_⟩
  rcases hcase with rfl | ⟨t2, rfl, h2⟩
  · exact Or.inl rfl
  · right
    have hst : isPrintf (statusMsg e.lora_begin_rc) = true := by
      unfold statusMsg
      split <;> rfl
    refine ⟨t2.filter isPrintf, by rw [List.filter_cons, hst]; simp, ?_⟩
    intro ev hev
    rw [List.mem_filter] at hev
    have hb := h2 ev hev.1
    simp only [blinkBody, List.mem_cons, List.mem_singleton, List.not_mem_nil, or_false] at hb
    rcases hb with rfl | rfl | rfl | rfl | rfl | rfl
    · exact absurd hev.2 (by simp [isPrintf])
    · exact Or.inl rfl
    · exact absurd hev.2 (by simp [isPrintf])
    · exact absurd hev.2 (by simp [isPrintf])
    · exact Or.inr rfl
    · exact absurd hev.2 (by simp [isPrintf])

/-- Instance of C6: a Pico whose radio reports status -2. -/
theorem C6_console_output_witness :
    (pico_led_init picoCfg.board (envOf 0 (-2)) hwReset).1 = PICO_OK ∧
    trace picoCfg (envOf 0 (-2)) hwReset 25 = beforeBegin ∧
    printedText beforeBegin = "\nInitialising Pico ...\nNow intialising LoRa Communication" :=
  ⟨rfl, (C6_console_output picoCfg (envOf 0 (-2)) hwReset rfl).1,
    (C6_console_output picoCfg (envOf 0 (-2)) hwReset rfl).2.2.2.1⟩

/-! ## C7: blink delays -/

/-- C7 as stated fails: with `LED_DELAY_MS` overridden to 200 at build time, a
sleep between two consecutive LED writes of the startup blink (statements
3-13) and one of the steady-state loop (from statement 29 on) have the same
duration, so the startup delay is neither different from nor shorter than the
steady-state delay. -/
theorem C7_counterexample :
    ∃ d1 ∈ sleepsBetweenLedWrites none
        (run shortDelayCfg (envOf 0 0) 11 (after shortDelayCfg (envOf 0 0) hwReset 2)).1,
      ∃ d2 ∈ sleepsBetweenLedWrites none
        (run shortDelayCfg (envOf 0 0) 14 (after shortDelayCfg (envOf 0 0) hwReset 28)).1,
      d1 = d2 :=
  ⟨200, by decide, 200, by decide, rfl⟩

/-- C7 (amended): in a successful execution the startup blink (statements 3-13,
lines 101-111) has five sleeps between consecutive LED writes, each of 200 ms;
every sleep between two consecutive LED writes of the steady-state loop (the
statements after the 28th) lasts the value `sleep_ms` receives, that is
`LED_DELAY_MS` converted to `uint32_t` (modulo `2 ^ 32`); that value is 1000
when the build does not define the macro; and the startup delay is shorter than
the steady-state delay exactly when the converted value exceeds 200, as it does
in the default build. -/
theorem C7_blink_delays (c : Cfg) (e : Env) (h : Hw)
    (hrc : (pico_led_init c.board e h).1 = PICO_OK)
    (hs : e.lora_begin_rc = RADIOLIB_ERR_NONE) :
    (run c e 11 (after c e h 2)).1 = startupBlink ∧
    sleepsBetweenLedWrites none (run c e 11 (after c e h 2)).1 = [200, 200, 200, 200, 200] ∧
    (∀ k, ∀ d ∈ sleepsBetweenLedWrites none (run c e k (after c e h 28)).1,
      d = sleep_ms_arg c.LED_DELAY_MS) ∧
    sleepsBetweenLedWrites none (run c e 14 (after c e h 28)).1 =
      [sleep_ms_arg c.LED_DELAY_MS, sleep_ms_arg c.LED_DELAY_MS,
       sleep_ms_arg c.LED_DELAY_MS] ∧
    sleep_ms_arg c.LED_DELAY_MS = (c.LED_DELAY_MS % 2 ^ 32).toNat ∧
    ((∀ d1 ∈ sleepsBetweenLedWrites none (run c e 11 (after c e h 2)).1,
        ∀ d2 ∈ sleepsBetweenLedWrites none (run c e 14 (after c e h 28)).1, d1 < d2) ↔
      200 < (c.LED_DELAY_MS % 2 ^ 32).toNat) ∧
    (c.LED_DELAY_MS_define = none →
      c.LED_DELAY_MS = 1000 ∧ sleep_ms_arg c.LED_DELAY_MS = 1000 ∧
        200 < sleep_ms_arg c.LED_DELAY_MS) := by
  have h28 : (after c e h 28).pc = .l144 := by
    have := (exec_success c e h hrc hs 0).2
    simpa using this
  have hstart : (run c e 11 (after c e h 2)).1 = startupBlink := by
    simp [after, run, step, boot, hrc, emit, setLed, startupBlink]
  have hgap1 : sleepsBetweenLedWrites none (run c e 11 (after c e h 2)).1 =
      [200, 200, 200, 200, 200] := by
    rw [hstart]
    rfl
  have hloop : ∀ n, (run c e (7 * n) (after c e h 28)).1 = repeatEvents (blinkBody c) n :=
    fun n => (run_loop c e n _ h28).1
  have hgap2 : sleepsBetweenLedWrites none (run c e 14 (after c e h 28)).1 =
      [sleep_ms_arg c.LED_DELAY_MS, sleep_ms_arg c.LED_DELAY_MS,
       sleep_ms_arg c.LED_DELAY_MS] := by
    have := hloop 2
    simp only [Nat.reduceMul] at this
    rw [this]
    rfl
  have harg : sleep_ms_arg c.LED_DELAY_MS = (c.LED_DELAY_MS % 2 ^ 32).toNat := by
    unfold sleep_ms_arg
    norm_num
  refine ⟨hstart, hgap1, ?_, hgap2, harg, ?_, ?_⟩
  · intro k d hd
    have hk : 7 * k = k + 6 * k := by omega
    have hl := hloop k
    rw [hk, run_add] at hl
    simp only at hl
    apply sleepsBetween_loop c k none (by simp) d
    rw [← hl]
    exact sleepsBetween_left _ _ _ _ hd
  · rw [hgap1, hgap2, ← harg]
    constructor
    · intro hall
      exact hall 200 (by simp) (sleep_ms_arg c.LED_DELAY_MS) (by simp)
    · intro hlt d1 hd1 d2 hd2
      simp only [List.mem_cons, List.mem_singleton, List.not_mem_nil, or_false, or_self] at hd1 hd2
      omega
  · intro hdef
    have h1000 : c.LED_DELAY_MS = 1000 := by
      unfold Cfg.LED_DELAY_MS
      rw [hdef]
    refine ⟨h1000, ?_, ?_⟩ <;> rw [h1000] <;> decide

/-- Instance of C7 (amended): the default build, 200 ms against 1000 ms. -/
theorem C7_blink_delays_witness :
    (pico_led_init picoCfg.board (envOf 0 0) hwReset).1 = PICO_OK ∧
    (envOf 0 0).lora_begin_rc = RADIOLIB_ERR_NONE ∧
    sleepsBetweenLedWrites none (run picoCfg (envOf 0 0) 11 (after picoCfg (envOf 0 0) hwReset 2)).1
      = [200, 200, 200, 200, 200] ∧
    sleepsBetweenLedWrites none (run picoCfg (envOf 0 0) 14 (after picoCfg (envOf 0 0) hwReset 28)).1
      = [1000, 1000, 1000] :=
  ⟨rfl, rfl, (C7_blink_delays picoCfg (envOf 0 0) hwReset rfl rfl).2.1,
    (C7_blink_delays picoCfg (envOf 0 0) hwReset rfl rfl).2.2.2.1⟩

/-! ## C8: `initLoRaPins` -/

/-- C8: for every GPIO state `g`, after `initLoRaPins` pins 3 (chip select) and
15 (reset) are outputs driven high, pins 20 (DIO1) and 2 (BUSY) are inputs,
every other pin has the state it had in `g` (in particular the SPI pins 10, 11,
12 and pin 25, the LED of the Pico), and executing the four configuration
blocks in any order `l` gives the same GPIO state. -/
theorem C8_initLoRaPins (g : Gpio) (l : List PinBlock)
    (hl : l.Perm [.cs, .dio1, .rst, .busy]) :
    CS_PIN = 3 ∧ RST_PIN = 15 ∧ DIO1_PIN = 20 ∧ BUSY_PIN = 2 ∧
    (initLoRaPins g 3).out = true ∧ (initLoRaPins g 3).level = true ∧
    (initLoRaPins g 15).out = true ∧ (initLoRaPins g 15).level = true ∧
    (initLoRaPins g 20).out = false ∧ (initLoRaPins g 2).out = false ∧
    (∀ p, p ≠ 2 → p ≠ 3 → p ≠ 15 → p ≠ 20 → initLoRaPins g p = g p) ∧
    initLoRaPins g SPI_SCK = g SPI_SCK ∧ initLoRaPins g SPI_MOSI = g SPI_MOSI ∧
    initLoRaPins g SPI_MISO = g SPI_MISO ∧ initLoRaPins g 25 = g 25 ∧
    runBlocks l g = initLoRaPins g := by
  refine ⟨rfl, rfl, rfl, rfl, ?_, ?_, ?_, ?_, ?_, ?_, ?_, ?_, ?_, ?_, ?_, ?_⟩
  · simp [initLoRaPins_pin]
  · simp [initLoRaPins_pin]
  · simp [initLoRaPins_pin]
  · simp [initLoRaPins_pin]
  · simp [initLoRaPins_pin]
  · simp [initLoRaPins_pin]
  · intro p h2 h3 h15 h20
    simp [initLoRaPins_pin, h2, h3, h15, h20]
  · simp [initLoRaPins_pin, SPI_SCK]
  · simp [initLoRaPins_pin, SPI_MOSI]
  · simp [initLoRaPins_pin, SPI_MISO]
  · simp [initLoRaPins_pin]
  · have hfold : List.foldl (fun acc b => runBlock b acc) g l =
        List.foldl (fun acc b => runBlock b acc) g [.cs, .dio1, .rst, .busy] :=
      List.Perm.foldl_eq' hl (fun x _ y _ z => runBlock_comm x y z) g
    simpa [runBlocks, runBlock, initLoRaPins] using hfold

/-- Instance of C8: the four blocks in reverse order on the reset state. -/
theorem C8_initLoRaPins_witness :
    [PinBlock.busy, .rst, .dio1, .cs].Perm [.cs, .dio1, .rst, .busy] ∧
    (initLoRaPins hwReset.gpio 3).out = true ∧
    runBlocks [.busy, .rst, .dio1, .cs] hwReset.gpio = initLoRaPins hwReset.gpio :=
  ⟨by decide,
    (C8_initLoRaPins hwReset.gpio [.busy, .rst, .dio1, .cs] (by decide)).2.2.2.2.1,
    (C8_initLoRaPins hwReset.gpio [.busy, .rst, .dio1, .cs] (by decide)).2.2.2.2.2.2.2.2.2.2.2.2.2.2.2⟩

/-! ## C9: the startup blink and the LED state -/

/-- C9: when LED initialisation succeeds, statements 3-13 of `main` (lines
101-111) produce exactly on, sleep 200, off, sleep 200, on, sleep 200, off,
sleep 200, on, sleep 200, off: six LED writes alternating on and off, five
sleeps, three on-pulses.  The thirteen statements that follow, up to and
including the `lora.begin` call, contain no LED write, so the last value
written to the LED when `lora.begin` is called is off, and stays off in every
later trace when `lora.begin` fails.  In the hardware state the LED is lit after
each `pico_set_led(true)` of the blink and dark after each `pico_set_led(false)`;
it is dark when `lora.begin` is called, and dark in every later state when
`lora.begin` fails, on every board whose LED is not wired to the chip select
or reset pin and with `stdio_init_all` and `lora.begin` leaving the LED as it is. -/
theorem C9_startup_blink (c : Cfg) (e : Env) (h : Hw)
    (hrc : (pico_led_init c.board e h).1 = PICO_OK) :
    (run c e 11 (after c e h 2)).1 =
      [.led true, .sleep 200, .led false, .sleep 200, .led true, .sleep 200,
       .led false, .sleep 200, .led true, .sleep 200, .led false] ∧
    (run c e 11 (after c e h 2)).1.filter isLed =
      [.led true, .led false, .led true, .led false, .led true, .led false] ∧
    ((run c e 11 (after c e h 2)).1.filter isSleep).length = 5 ∧
    (run c e 11 (after c e h 2)).1.count (.led true) = 3 ∧
    (run c e 13 (after c e h 13)).1 =
      [.stdioInit] ++ consoleBanner ++
        [.loraPins, .printf "\nNow intialising LoRa Communication" [],
         .loraBegin beginArgs] ∧
    (run c e 13 (after c e h 13)).1.filter isLed = [] ∧
    (after c e h 25).pc = .l134 ∧
    ledState (trace c e h 25) = some false ∧
    (e.lora_begin_rc ≠ RADIOLIB_ERR_NONE →
      ∀ n, ledState (trace c e h (25 + n)) = some false) ∧
    (List.range 11).map (fun i => ledOn c.board (after c e h (3 + i)).hw) =
      [true, true, false, false, true, true, false, false, true, true, false] ∧
    (c.board ≠ .gpioLed CS_PIN → c.board ≠ .gpioLed RST_PIN →
      (∀ x, ledOn c.board (e.stdio_init_all_hw x) = ledOn c.board x) →
        ledOn c.board (after c e h 25).hw = false ∧
        ((∀ x, ledOn c.board (e.lora_begin_hw x) = ledOn c.board x) →
          e.lora_begin_rc ≠ RADIOLIB_ERR_NONE →
          ∀ n, ledOn c.board (after c e h (25 + n)).hw = false)) := by
  have hstart : (run c e 11 (after c e h 2)).1 = startupBlink := by
    simp [after, run, step, boot, hrc, emit, setLed, startupBlink]
  have hmid : (run c e 13 (after c e h 13)).1 =
      [.stdioInit] ++ consoleBanner ++
        [.loraPins, .printf "\nNow intialising LoRa Communication" [],
         .loraBegin beginArgs] := by
    simp [after, run, step, boot, hrc, emit, setLed, consoleBanner, beginArgs]
  obtain ⟨h25, hpc, hhw⟩ := at_begin c e h hrc
  refine ⟨hstart, ?_, ?_, ?_, hmid, ?_, hpc, ?_, ?_, ledOn_startup c e h hrc, ?_⟩
  · rw [hstart]; decide
  · rw [hstart]; decide
  · rw [hstart]; decide
  · rw [hmid]; decide
  · rw [h25]; decide
  · intro hs n
    obtain ⟨t, ht⟩ := trace_mono c e h 25 (25 + n) (by omega)
    obtain ⟨u, hu⟩ := trace_below_failure c e h hrc hs (25 + n)
    rw [ht, h25, List.append_assoc] at hu
    have htu : [.loraBegin beginArgs, failureMsg e.lora_begin_rc] = t ++ u :=
      List.append_cancel_left hu
    have hno : ∀ ev ∈ t, isLed ev = false := by
      intro ev hev
      have hmem : ev ∈ [Event.loraBegin beginArgs, failureMsg e.lora_begin_rc] := by
        rw [htu]
        exact List.mem_append_left _ hev
      simp only [List.mem_cons, List.mem_singleton, List.not_mem_nil, or_false] at hmem
      rcases hmem with rfl | rfl <;> rfl
    rw [ht, h25, ledState, ledStateFrom_append, ledStateFrom_no_led _ t hno]
    decide
  · intro hcs hrst hstdio
    have hoff := ledOn_at_begin c e h hcs hrst hstdio
    refine ⟨by rw [hhw, hoff], ?_⟩
    intro hbegin hs n
    rcases n with _ | k
    · rw [Nat.add_zero, hhw, hoff]
    · have e1 : 25 + (k + 1) = 26 + k := by omega
      rw [e1, hw_after_failure c e h hrc hs k, hbegin, hoff]

/-- Instance of C9: a Pico whose radio reports status -2, observed after 1025 statements. -/
theorem C9_startup_blink_witness :
    (pico_led_init picoCfg.board (envOf 0 (-2)) hwReset).1 = PICO_OK ∧
    (envOf 0 (-2)).lora_begin_rc ≠ RADIOLIB_ERR_NONE ∧
    ledState (trace picoCfg (envOf 0 (-2)) hwReset 25) = some false ∧
    ledState (trace picoCfg (envOf 0 (-2)) hwReset (25 + 1000)) = some false ∧
    ledOn picoCfg.board (after picoCfg (envOf 0 (-2)) hwReset 3).hw = true ∧
    ledOn picoCfg.board (after picoCfg (envOf 0 (-2)) hwReset 25).hw = false ∧
    ledOn picoCfg.board (after picoCfg (envOf 0 (-2)) hwReset (25 + 1000)).hw = false :=
  ⟨rfl, by decide, (C9_startup_blink picoCfg (envOf 0 (-2)) hwReset rfl).2.2.2.2.2.2.2.1,
    (C9_startup_blink picoCfg (envOf 0 (-2)) hwReset rfl).2.2.2.2.2.2.2.2.1 (by decide) 1000,
    rfl,
    ((C9_startup_blink picoCfg (envOf 0 (-2)) hwReset rfl).2.2.2.2.2.2.2.2.2.2
      (by decide) (by decide) (fun _ => rfl)).1,
    ((C9_startup_blink picoCfg (envOf 0 (-2)) hwReset rfl).2.2.2.2.2.2.2.2.2.2
      (by decide) (by decide) (fun _ => rfl)).2 (fun _ => rfl) (by decide) 1000⟩

/-! ## C10: `pico_led_init` on a GPIO LED -/

/-- C10 as stated fails: on a Pico (LED on GPIO 25) started with the output
level of pin 25 latched high, `pico_led_init` does not only change the
direction of the LED pin: `gpio_init` also clears its output level. -/
theorem C10_counterexample :
    ¬ (∀ q,
        ((pico_led_init (.gpioLed 25) (envOf 0 0) hwLevelHigh).2.gpio q).out =
            (if q = 25 then true else (hwLevelHigh.gpio q).out) ∧
        ((pico_led_init (.gpioLed 25) (envOf 0 0) hwLevelHigh).2.gpio q).level =
            (hwLevelHigh.gpio q).level) := by
  intro hall
  have h25 := (hall 25).2
  revert h25
  decide

/-- C10 (amended): in the build where `PICO_DEFAULT_LED_PIN` is defined as `p`,
for every hardware state `pico_led_init` returns `PICO_OK`; it resets the LED
pin and makes it an output (direction output, output level low, SIO function)
and leaves every other pin and the wireless chip untouched.  Hence the
assertion of line 98 never fails, and `main` reaches line 101 after two
statements and then performs the startup blink. -/
theorem C10_led_init (p : Nat) (d : Option Int) (e : Env) (h : Hw) :
    (pico_led_init (.gpioLed p) e h).1 = PICO_OK ∧
    (∀ q, (pico_led_init (.gpioLed p) e h).2.gpio q =
      if q = p then ⟨true, false, GPIO_FUNC_SIO⟩ else h.gpio q) ∧
    (pico_led_init (.gpioLed p) e h).2.wl = h.wl ∧
    (∀ n, Event.assertFail ∉ trace ⟨.gpioLed p, d⟩ e h n) ∧
    (after ⟨.gpioLed p, d⟩ e h 2).pc = .l101 ∧
    trace ⟨.gpioLed p, d⟩ e h 13 = [.ledInit] ++ startupBlink := by
  have hrc : (pico_led_init (Cfg.mk (.gpioLed p) d).board e h).1 = PICO_OK := rfl
  refine ⟨rfl, ?_, rfl, ?_, ?_, ?_⟩
  · intro q
    by_cases hq : q = p <;>
      simp [pico_led_init, gpio_init, gpio_set_function, gpio_put, gpio_set_dir, GPIO_OUT, hq]
  · intro n hmem
    obtain ⟨t, ht⟩ := trace_mono ⟨.gpioLed p, d⟩ e h n (26 + n) (by omega)
    obtain ⟨u, hu, hcase⟩ := trace_after_begin ⟨.gpioLed p, d⟩ e h hrc n
    have hmem2 : Event.assertFail ∈ beforeBegin ++ [.loraBegin beginArgs] ++ u := by
      rw [← hu, ht]
      exact List.mem_append_left _ hmem
    simp only [List.mem_append, List.mem_singleton] at hmem2
    rcases hmem2 with (hb | hb) | hb
    · revert hb
      decide
    · exact Event.noConfusion hb
    · rcases hcase with rfl | ⟨t2, rfl, h2⟩
      · simp at hb
      · rcases List.mem_cons.1 hb with hb | hb
        · unfold statusMsg at hb
          split at hb <;> exact Event.noConfusion hb
        · have := h2 _ hb
          simp [blinkBody] at this
  · simp [after, run, step, boot, pico_led_init, PICO_OK]
  · simp [trace, run, step, boot, pico_led_init, PICO_OK, emit, setLed, startupBlink]

end UmorPico
